import Mathlib

/-!
Shallow embedding of the content-router dispatch engine
(github.com/aomirun/content-router): the Buffer type, the generic object
pool and its BufferManager wrapper, the pooled Context with its heap of
value stores, and the Router with its route table, middleware chain and
dirty-flag chain cache.  Each definition mirrors one Go function of the
repository; the theorems at the end of the file settle the specification
claims against these definitions.
-/

namespace ContentRouter

/-! ### Buffer (buffer/bufferImpl)

A buffer is a growable byte sequence; bytes are modelled as `Char`.
`bufferImpl.Truncate` executes `b.data = b.data[:n]` under the guard
`n < len(b.data)`; a Go slice expression with a negative bound panics,
so `truncate` returns `none` exactly there. -/

structure Buffer where
  data : List Char
deriving DecidableEq, Repr

/-- bufferImpl.Get: the underlying byte sequence. -/
def Buffer.get (b : Buffer) : List Char := b.data

/-- bufferImpl.Len: current length of the valid data. -/
def Buffer.len (b : Buffer) : Nat := b.data.length

/-- bufferImpl.Write: append bytes, growing as needed; returns the count
written (the Go method also returns a nil error, which is constant). -/
def Buffer.write (b : Buffer) (p : List Char) : Buffer × Nat :=
  ({ data := b.data ++ p }, p.length)

/-- bufferImpl.Reset: truncate to zero length (capacity is not modelled;
no claim mentions it). -/
def Buffer.reset (b : Buffer) : Buffer :=
  { b with data := [] }

/-- bufferImpl.Truncate: `if n < len(b.data) { b.data = b.data[:n] }`.
`n` is a Go `int`; when `n` is negative the slice expression
`b.data[:n]` panics, modelled as `none`. -/
def Buffer.truncate (b : Buffer) (n : Int) : Option Buffer :=
  if n < (b.data.length : Int) then
    if 0 ≤ n then some { b with data := b.data.take n.toNat } else none
  else
    some b

/-- NewBuffer: a fresh empty buffer (initial capacity not modelled). -/
def newBuffer : Buffer := { data := [] }

/-! ### Generic object pool (buffer/poolImpl) instantiated at Buffer

`poolImpl` wraps a `sync.Pool`.  The free list is modelled as a LIFO
list; `sync.Pool.Get` may return any idle object or a fresh one, and the
theorems that depend on which object comes back also establish the
invariant that every idle object is reset, so the LIFO choice is not
load-bearing.  A `T` of interface type can be the nil interface, hence
`Option Buffer` for the released object. -/

structure BufferPool where
  idle : List Buffer
deriving Repr

/-- poolImpl.Acquire: `p.pool.Get()`; a `sync.Pool` returns an idle
object if one exists, otherwise the `New` factory result (`NewBuffer`). -/
def poolAcquire (p : BufferPool) : Buffer × BufferPool :=
  match p.idle with
  | [] => (newBuffer, p)
  | b :: rest => (b, { idle := rest })

/-- poolImpl.Release: if the object satisfies the `Mutable` interface its
`Reset` is invoked, then `p.pool.Put(obj)`.  A nil interface value fails
the `Mutable` type assertion, and `sync.Pool.Put(nil)` returns without
storing, so releasing nil leaves the pool unchanged.  A non-nil Buffer
(the `bufferImpl`) is `Mutable`, so it is reset and stored. -/
def poolRelease (obj : Option Buffer) (p : BufferPool) : BufferPool :=
  match obj with
  | none => p
  | some b => { idle := b.reset :: p.idle }

/-- poolImpl.Size: `sync.Pool` exposes no size, so the method returns 0. -/
def poolSize (_ : BufferPool) : Nat := 0

/-! ### BufferManager (manage/bufferManagerImpl)

The manager wraps the buffer pool.  Its `Release` calls `buf.Reset()`
unconditionally before delegating to the pool; on a nil interface value
that call is a nil-pointer dereference, modelled as `none`. -/

/-- bufferManagerImpl.Acquire: delegate to the pool. -/
def managerAcquire (p : BufferPool) : Buffer × BufferPool :=
  poolAcquire p

/-- bufferManagerImpl.Release: `buf.Reset()` then `bm.pool.Release(buf)`.
`buf.Reset()` on a nil interface panics (`none`). -/
def managerRelease (obj : Option Buffer) (p : BufferPool) : Option BufferPool :=
  match obj with
  | none => none
  | some b => some (poolRelease (some b.reset) p)

/-! ### Context (context/contextImpl)

`contextImpl` holds an embedded parent `context.Context`, a Buffer
reference, and a `map[interface{}]interface{}` of values.  The map is a
mutable heap object shared by reference: `Fork` copies its entries into
a fresh map while keeping the same Buffer reference, and `Reset` deletes
every key of the same map object.  The heap of map objects is `CtxMem`
(cell index = map reference); buffers are identified by reference id.
Keys and values (`interface{}` in Go) are modelled as `Nat`. -/

/-- One value-store map: an association list with unique keys. -/
abbrev Store := List (Nat × Nat)

/-- Go map assignment `m[k] = v`: replace the binding of `k`, or add it. -/
def storeSet (s : Store) (k v : Nat) : Store :=
  match s with
  | [] => [(k, v)]
  | (k', v') :: t => if k' = k then (k, v) :: t else (k', v') :: storeSet t k v

/-- Go map deletion `delete(m, k)`. -/
def storeDel (s : Store) (k : Nat) : Store :=
  match s with
  | [] => []
  | (k', v') :: t => if k' = k then storeDel t k else (k', v') :: storeDel t k

/-- Go map read `m[k]` (absent gives the nil interface, i.e. `none`). -/
def storeGet (s : Store) (k : Nat) : Option Nat :=
  match s with
  | [] => none
  | (k', v') :: t => if k' = k then some v' else storeGet t k

/-- The heap of value-store map objects; a map reference is an index. -/
structure CtxMem where
  cells : List Store
deriving Repr

/-- A `contextImpl` object: the embedded parent context (nil after
Reset), the buffer reference (nil after Reset), and the reference to its
values map. -/
structure CtxObj where
  parent : Option Nat
  bufRef : Option Nat
  mapRef : Nat
deriving DecidableEq, Repr

/-- Read the values map of a context out of the heap. -/
def ctxStore (c : CtxObj) (m : CtxMem) : Store :=
  m.cells.getD c.mapRef []

/-- Overwrite the values map of a context in the heap. -/
def ctxWriteStore (c : CtxObj) (m : CtxMem) (s : Store) : CtxMem :=
  { cells := m.cells.set c.mapRef s }

/-- contextImpl.Set: `c.values[key] = value`. -/
def ctxSet (c : CtxObj) (k v : Nat) (m : CtxMem) : CtxMem :=
  ctxWriteStore c m (storeSet (ctxStore c m) k v)

/-- contextImpl.Get: `return c.values[key]`. -/
def ctxGet (c : CtxObj) (k : Nat) (m : CtxMem) : Option Nat :=
  storeGet (ctxStore c m) k

/-- contextImpl.Delete: `delete(c.values, key)`. -/
def ctxDelete (c : CtxObj) (k : Nat) (m : CtxMem) : CtxMem :=
  ctxWriteStore c m (storeDel (ctxStore c m) k)

/-- contextImpl.Buffer: the associated buffer reference. -/
def ctxBuffer (c : CtxObj) : Option Nat := c.bufRef

/-- contextImpl.Fork: copy the values into a fresh map (a fresh heap
cell), keep the same parent context and the same buffer reference. -/
def ctxFork (c : CtxObj) (m : CtxMem) : CtxObj × CtxMem :=
  (⟨c.parent, c.bufRef, m.cells.length⟩,
   { cells := m.cells ++ [ctxStore c m] })

/-- contextImpl.ForkWithBuffer: same as Fork but with the given buffer. -/
def ctxForkWithBuffer (c : CtxObj) (b : Option Nat) (m : CtxMem) : CtxObj × CtxMem :=
  (⟨c.parent, b, m.cells.length⟩,
   { cells := m.cells ++ [ctxStore c m] })

/-! The context pool (`contextPool`, a `sync.Pool` of `*contextImpl`)
is the free list of context objects; the heap travels alongside. -/

/-- NewContext: substitute `context.Background()` (parent id 0) for a
nil parent, take a `*contextImpl` from the pool (the pool's `New` makes
one with a fresh empty map), set the parent and buffer, and clear the
values map before handing the context out. -/
def newContext (parent : Option Nat) (buf : Option Nat)
    (pool : List CtxObj) (m : CtxMem) : CtxObj × List CtxObj × CtxMem :=
  let parentId := match parent with
    | none => 0
    | some p => p
  match pool with
  | c :: rest =>
      (⟨some parentId, buf, c.mapRef⟩, rest, ctxWriteStore c m [])
  | [] =>
      (⟨some parentId, buf, m.cells.length⟩, [], { cells := m.cells ++ [[]] })

/-- contextImpl.Reset: delete every key of the values map, nil out the
buffer and the parent context, and put the object back into the pool. -/
def ctxReset (c : CtxObj) (pool : List CtxObj) (m : CtxMem) :
    List CtxObj × CtxMem :=
  (⟨none, none, c.mapRef⟩ :: pool, ctxWriteStore c m [])

/-- Handler-visible mutations of a context between acquire and release
(`Set` / `Delete` calls), used to quantify over arbitrary use. -/
inductive CtxOp where
  | set (k v : Nat)
  | del (k : Nat)
deriving Repr

/-- Run a sequence of value-store operations on a context. -/
def applyOps (c : CtxObj) (ops : List CtxOp) (m : CtxMem) : CtxMem :=
  match ops with
  | [] => m
  | CtxOp.set k v :: t => applyOps c t (ctxSet c k v m)
  | CtxOp.del k :: t => applyOps c t (ctxDelete c k m)

/-! ### Router (router/routerImpl)

Handlers, matchers and middlewares are functions over the router
context.  Go handlers mutate the context (and anything their closures
reach), so the embedding is state-passing and parametric in the context
state type `Ctx`: a handler maps a context state to the new state plus
the returned error (`none` is Go's nil error). -/

section Router

variable {Ctx : Type}

/-- Errors are opaque values; `Option Err` with `none` = nil error. -/
abbrev Err := String

/-- router.HandlerFunc: `func(ctx router_context.Context) error`. -/
abbrev HandlerFunc (Ctx : Type) := Ctx → Ctx × Option Err

/-- router.MiddlewareFunc: `func(ctx, next HandlerFunc) error`. -/
abbrev MiddlewareFunc (Ctx : Type) := Ctx → HandlerFunc Ctx → Ctx × Option Err

/-- router.Matcher / MatcherFunc: `func(ctx) bool`. -/
abbrev Matcher (Ctx : Type) := Ctx → Bool

/-- routeEntry: one (matcher, handler) pair of the route table. -/
structure RouteEntry (Ctx : Type) where
  matcher : Matcher Ctx
  handler : HandlerFunc Ctx

/-- routerImpl: the route table, the middleware list, the cached
composed chain and the dirty flag (pipelines and the buffer manager are
not consulted by dispatch and are omitted). -/
structure RouterState (Ctx : Type) where
  routes : List (RouteEntry Ctx)
  middlewares : List (MiddlewareFunc Ctx)
  handlerChain : Option (HandlerFunc Ctx)
  dirty : Bool

/-- NewRouter: empty tables, no cached chain, dirty flag unset. -/
def newRouter : RouterState Ctx :=
  { routes := [], middlewares := [], handlerChain := none, dirty := false }

/-- The terminal handler built inside buildHandlerChain (`baseHandler`):
scan the route table in registration order, run the handler of the
first entry whose matcher accepts the context, and return nil if no
entry matches. -/
def baseHandler (routes : List (RouteEntry Ctx)) : HandlerFunc Ctx :=
  fun ctx =>
    match routes with
    | [] => (ctx, none)
    | e :: rest => if e.matcher ctx then e.handler ctx else baseHandler rest ctx

/-- The middleware-wrapping loop of buildHandlerChain: from the last
middleware to the first, wrap the handler so far, so the
first-registered middleware ends up outermost. -/
def composeChain (middlewares : List (MiddlewareFunc Ctx)) (h : HandlerFunc Ctx) :
    HandlerFunc Ctx :=
  List.foldr (fun mw acc => fun ctx => mw ctx acc) h middlewares

/-- The rebuild branch of routerImpl.buildHandlerChain: make the base
handler; with no middlewares cache and return it directly, otherwise
cache and return the middleware-wrapped chain.  Either way the dirty
flag is cleared. -/
def rebuildChain (r : RouterState Ctx) : HandlerFunc Ctx × RouterState Ctx :=
  match r.middlewares with
  | [] =>
      (baseHandler r.routes,
       { r with handlerChain := some (baseHandler r.routes), dirty := false })
  | _ :: _ =>
      (composeChain r.middlewares (baseHandler r.routes),
       { r with handlerChain := some (composeChain r.middlewares (baseHandler r.routes)),
                dirty := false })

/-- routerImpl.buildHandlerChain: `if !r.dirty && r.handlerChain != nil`
return the cached chain, else rebuild. -/
def buildHandlerChain (r : RouterState Ctx) : HandlerFunc Ctx × RouterState Ctx :=
  match r.dirty, r.handlerChain with
  | false, some h => (h, r)
  | false, none => rebuildChain r
  | true, _ => rebuildChain r

/-- routerImpl.Register: append a route entry and set the dirty flag. -/
def register (r : RouterState Ctx) (m : Matcher Ctx) (h : HandlerFunc Ctx) :
    RouterState Ctx :=
  { r with routes := r.routes ++ [⟨m, h⟩], dirty := true }

/-- routerImpl.Use: append the middlewares and set the dirty flag. -/
def use (r : RouterState Ctx) (ms : List (MiddlewareFunc Ctx)) : RouterState Ctx :=
  { r with middlewares := r.middlewares ++ ms, dirty := true }

/-- The matcher routerImpl.Match derives from its pattern string:
`len(data) >= len(patternBytes) && bytes.HasPrefix(data, patternBytes)`
over `ctx.Buffer().Get()` — the whole pattern is used as a literal
leading byte sequence. -/
def matchPattern (pat : List Char) (data : List Char) : Bool :=
  pat.length ≤ data.length && List.isPrefixOf pat data

/-- routerImpl.Match: register the derived pattern matcher.  `bufGet`
projects the payload bytes `ctx.Buffer().Get()` out of the context
state. -/
def routerMatch (bufGet : Ctx → List Char) (r : RouterState Ctx)
    (pat : List Char) (h : HandlerFunc Ctx) : RouterState Ctx :=
  register r (fun ctx => matchPattern pat (bufGet ctx)) h

/-- routerImpl.Route: build (or fetch) the chain, run it against the
context made from the buffer, and return the error together with the
updated router state and the final context state. -/
def route (r : RouterState Ctx) (ctx0 : Ctx) :
    (Ctx × Option Err) × RouterState Ctx :=
  let hc := buildHandlerChain r
  (hc.1 ctx0, hc.2)

/-- Router states reachable from NewRouter through the public
operations (Match is Register with a derived matcher, so the register
step subsumes it). -/
inductive Reachable : RouterState Ctx → Prop where
  | new : Reachable newRouter
  | register (r : RouterState Ctx) (m : Matcher Ctx) (h : HandlerFunc Ctx) :
      Reachable r → Reachable (register r m h)
  | use (r : RouterState Ctx) (ms : List (MiddlewareFunc Ctx)) :
      Reachable r → Reachable (use r ms)
  | route (r : RouterState Ctx) (ctx0 : Ctx) :
      Reachable r → Reachable (route r ctx0).2

end Router

/-! ### Built-in matchers (router/PrefixMatcher, SuffixMatcher,
ContainsMatcher) as byte-level predicates over the payload. -/

/-- PrefixMatcher's test: `len(data) >= len(p) && bytes.HasPrefix`. -/
def prefixMatches (p : List Char) (data : List Char) : Bool :=
  p.length ≤ data.length && List.isPrefixOf p data

/-- SuffixMatcher's test: `len(data) >= len(s) && bytes.HasSuffix`. -/
def suffixMatches (s : List Char) (data : List Char) : Bool :=
  s.length ≤ data.length && List.isSuffixOf s data

/-- ContainsMatcher's test: `len(data) >= len(sub) && bytes.Contains`. -/
def containsMatches (sub : List Char) (data : List Char) : Bool :=
  sub.length ≤ data.length && decide (sub <:+: data)

/-- Route through the buffer-carrying context view: routerImpl.Route
takes the payload buffer, wraps it in a context whose payload bytes are
the buffer's data, runs the chain, and returns the original buffer
reference together with the chain's error (`return buffer, err`). -/
def routeBuffer (r : RouterState (List Char)) (buf : Buffer) :
    Buffer × Option Err × RouterState (List Char) :=
  let res := route r buf.data
  (buf, res.1.2, res.2)

/-! ### Helper lemmas about heap cells -/

/-- Writing a cell and reading it back with the same default yields the
written value, whether or not the index is in range. -/
theorem set_getD_eq {α : Type} (x : α) :
    ∀ (l : List α) (i : Nat), (l.set i x).getD i x = x := by
  intro l
  induction l with
  | nil => intro i; simp
  | cons a t ih =>
      intro i
      cases i with
      | zero => rfl
      | succ j => exact ih j

/-- Reading below the split point of an append ignores the right part. -/
theorem getD_append_left {α : Type} (d : α) :
    ∀ (l l2 : List α) (i : Nat), i < l.length → (l ++ l2).getD i d = l.getD i d := by
  intro l
  induction l with
  | nil => intro l2 i hi; simp at hi
  | cons a t ih =>
      intro l2 i hi
      cases i with
      | zero => rfl
      | succ j => exact ih l2 j (Nat.lt_of_succ_lt_succ hi)

/-- Reading the cell appended at the end of the heap. -/
theorem getD_append_length {α : Type} (d x : α) :
    ∀ (l : List α), (l ++ [x]).getD l.length d = x := by
  intro l
  induction l with
  | nil => rfl
  | cons a t ih => exact ih

/-- Writing one cell leaves every other cell unchanged. -/
theorem set_getD_ne {α : Type} (d x : α) :
    ∀ (l : List α) (i j : Nat), i ≠ j → (l.set i x).getD j d = l.getD j d := by
  intro l
  induction l with
  | nil => intro i j _; simp
  | cons a t ih =>
      intro i j hij
      cases i with
      | zero =>
          cases j with
          | zero => exact absurd rfl hij
          | succ j2 => rfl
      | succ i2 =>
          cases j with
          | zero => rfl
          | succ j2 => exact ih i2 j2 (fun h => hij (congrArg Nat.succ h))

/-! ### Claim theorems -/

/-- Claim C10: poolImpl.Size returns 0 for every pool state, so the
advertised best-effort idle count is the constant 0. -/
theorem pool_size_always_zero (p : BufferPool) : poolSize p = 0 := rfl

/-- Claim C9, counterexample: the claim says releasing a nil value is a
safe no-op on the BufferManager wrapper as well; on the empty pool,
`managerRelease none` dereferences the nil buffer (`buf.Reset()`) and
panics (`none`) instead of returning the pool unchanged. -/
theorem manager_release_nil_panics :
    managerRelease none { idle := [] } = none ∧
    managerRelease none { idle := [] } ≠ some { idle := [] } := by
  refine ⟨rfl, ?_⟩
  intro h
  cases h

/-- Claim C9, amended: releasing a nil value is a safe no-op on the
Buffer pool's Release (no reset is invoked and the pool is unchanged),
but the BufferManager wrapper's Release calls Reset on the nil buffer
and panics. -/
theorem release_nil_amended (p : BufferPool) :
    poolRelease none p = p ∧ managerRelease none p = none :=
  ⟨rfl, rfl⟩

/-- Claim C8, counterexample: the claim quantifies over every integer
`n` and asserts that for `n < Len` the truncated length becomes exactly
`n`; at `n = -1` on a one-byte buffer (so `n < Len`) the Go slice
expression `b.data[:n]` panics instead. -/
theorem truncate_negative_panics :
    (-1 : Int) < (Buffer.len { data := ['a'] } : Int) ∧
    Buffer.truncate { data := ['a'] } (-1) = none := by
  exact ⟨by decide, rfl⟩

/-- Claim C8, amended: if `n ≥ Len` then Truncate is a no-op that never
grows and never panics; if `0 ≤ n < Len` then the result has length
exactly `n` and its contents are the first `n` bytes unchanged; a
negative `n` makes the slice expression panic. -/
theorem truncate_spec (b : Buffer) (n : Int) :
    ((b.len : Int) ≤ n → b.truncate n = some b) ∧
    (0 ≤ n → n < (b.len : Int) →
      b.truncate n = some { data := b.data.take n.toNat } ∧
      ((b.data.take n.toNat).length : Int) = n) ∧
    (n < 0 → b.truncate n = none) := by
  refine ⟨?_, ?_, ?_⟩
  · intro hle
    unfold Buffer.truncate
    rw [if_neg (by exact not_lt.mpr hle)]
  · intro h0 hlt
    unfold Buffer.len at hlt
    refine ⟨?_, ?_⟩
    · unfold Buffer.truncate
      rw [if_pos hlt, if_pos h0]
    · have hnat : n.toNat < b.data.length := by
        omega
      rw [List.length_take]
      omega
  · intro hneg
    unfold Buffer.truncate
    have hlt : n < (b.data.length : Int) := by
      have : (0 : Int) ≤ (b.data.length : Int) := Int.ofNat_nonneg _
      omega
    rw [if_pos hlt, if_neg (by omega)]

/-- Claim C8 witness: the amended statement evaluated at concrete
inputs — truncating a 3-byte buffer to 5 is a no-op, truncating it to 2
keeps the first 2 bytes. -/
theorem truncate_spec_witness :
    Buffer.truncate { data := ['a', 'b', 'c'] } 5 = some { data := ['a', 'b', 'c'] } ∧
    Buffer.truncate { data := ['a', 'b', 'c'] } 2 =
      some { data := List.take (Int.toNat 2) ['a', 'b', 'c'] } ∧
    ((List.take (Int.toNat 2) ['a', 'b', 'c']).length : Int) = 2 := by
  refine ⟨(truncate_spec { data := ['a', 'b', 'c'] } 5).1 (by decide), ?_, ?_⟩
  · exact ((truncate_spec { data := ['a', 'b', 'c'] } 2).2.1 (by decide) (by decide)).1
  · exact ((truncate_spec { data := ['a', 'b', 'c'] } 2).2.1 (by decide) (by decide)).2

/-- Claim C5: the doc contract of RouteRegistrar.Match documents the
pattern DSL (`/prefix/X`, `/suffix/X`, `/contains/X`, `/regex/X`, bare
string = leading-bytes match), but routerImpl.Match treats every
pattern as a literal leading byte sequence: the payload
"Hello, World!" contains "World", yet the matcher derived from
"/contains/World" rejects it (the payload does not begin with the
literal bytes "/contains/World"); the bare-string form does behave as a
leading-bytes match. -/
theorem match_dsl_divergence :
    matchPattern "/contains/World".toList "Hello, World!".toList = false ∧
    containsMatches "World".toList "Hello, World!".toList = true ∧
    matchPattern "Hello".toList "Hello, World!".toList = true := by
  decide

/-- Claim C2: across Acquire; Release; Acquire the second-acquired
instance is logically empty, because resetting happens at Release time.
Conjuncts: (1) on the Buffer pool the second-acquired buffer has length
0 whatever the first acquired buffer was mutated into before release;
(2) on the Context pool behind NewContext the second-acquired context
has an empty value store whatever Set/Delete operations ran before the
Reset; (3) the Buffer pool's Release itself resets the released buffer
on its way into the free list; (4) Context.Reset clears the value store
and nils the buffer (and parent) before returning the object to the
pool. -/
theorem pool_acquire_release_acquire_empty :
    (∀ (p : BufferPool) (b1 : Buffer),
      (poolAcquire (poolRelease (some b1) (poolAcquire p).2)).1.len = 0) ∧
    (∀ (parent buf parent2 buf2 : Option Nat) (pool : List CtxObj)
        (m : CtxMem) (ops : List CtxOp),
      ctxStore (newContext parent2 buf2
          (ctxReset (newContext parent buf pool m).1
            (newContext parent buf pool m).2.1
            (applyOps (newContext parent buf pool m).1 ops
              (newContext parent buf pool m).2.2)).1
          (ctxReset (newContext parent buf pool m).1
            (newContext parent buf pool m).2.1
            (applyOps (newContext parent buf pool m).1 ops
              (newContext parent buf pool m).2.2)).2).1
        (newContext parent2 buf2
          (ctxReset (newContext parent buf pool m).1
            (newContext parent buf pool m).2.1
            (applyOps (newContext parent buf pool m).1 ops
              (newContext parent buf pool m).2.2)).1
          (ctxReset (newContext parent buf pool m).1
            (newContext parent buf pool m).2.1
            (applyOps (newContext parent buf pool m).1 ops
              (newContext parent buf pool m).2.2)).2).2.2 = []) ∧
    (∀ (b : Buffer) (p : BufferPool),
      poolRelease (some b) p = { idle := b.reset :: p.idle } ∧ b.reset.len = 0) ∧
    (∀ (c : CtxObj) (pool : List CtxObj) (m : CtxMem),
      (ctxReset c pool m).1 = ⟨none, none, c.mapRef⟩ :: pool ∧
      ctxStore c (ctxReset c pool m).2 = []) := by
  refine ⟨?_, ?_, ?_, ?_⟩
  · intro p b1
    rfl
  · intro parent buf parent2 buf2 pool m ops
    show ctxStore _ _ = []
    simp only [ctxReset, newContext, ctxStore, ctxWriteStore]
    exact set_getD_eq [] _ _
  · intro b p
    exact ⟨rfl, rfl⟩
  · intro c pool m
    refine ⟨rfl, ?_⟩
    show (m.cells.set c.mapRef []).getD c.mapRef [] = []
    exact set_getD_eq [] m.cells c.mapRef

/-! Logging middlewares and a logging handler over the context state
`List String` (the log of execution events), used to exhibit execution
order through the composed chain. -/

/-- A middleware that logs a before event, calls next, then logs an
after event. -/
def logMw (name : String) : MiddlewareFunc (List String) := fun ctx next =>
  let r := next (ctx ++ [name ++ "-before"])
  (r.1 ++ [name ++ "-after"], r.2)

/-- A handler that logs its own execution. -/
def logH : HandlerFunc (List String) := fun ctx => (ctx ++ ["H"], none)

/-- Claim C3: middleware composition is onion-style with the
first-registered middleware outermost — structurally, the chain built
from `[M1, M2]` around `H` is `M1` wrapping (`M2` wrapping `H`); on
logging middlewares the execution order is M1-before, M2-before, H,
M2-after, M1-after. -/
theorem middleware_onion_order :
    (∀ (Ctx : Type) (m1 m2 : MiddlewareFunc Ctx) (h : HandlerFunc Ctx),
      composeChain [m1, m2] h = fun ctx => m1 ctx (fun c => m2 c h)) ∧
    composeChain [logMw "M1", logMw "M2"] logH [] =
      (["M1-before", "M2-before", "H", "M2-after", "M1-after"], none) := by
  exact ⟨fun Ctx m1 m2 h => rfl, rfl⟩

/-- Claim C1: the terminal handler scans the route table in
registration order; whenever every entry before `e` rejects the context
and `e`'s matcher accepts it, dispatch runs exactly `e`'s handler and
returns its result, independently of all later entries `post` (which
are present in the table but never consulted). -/
theorem first_match_wins {Ctx : Type} (pre : List (RouteEntry Ctx))
    (e : RouteEntry Ctx) (post : List (RouteEntry Ctx)) (ctx : Ctx)
    (hpre : ∀ e2 ∈ pre, e2.matcher ctx = false)
    (he : e.matcher ctx = true) :
    baseHandler (pre ++ e :: post) ctx = e.handler ctx := by
  induction pre with
  | nil =>
      show baseHandler (e :: post) ctx = e.handler ctx
      unfold baseHandler
      rw [he]
      simp
  | cons a t ih =>
      have ha : a.matcher ctx = false := hpre a (List.mem_cons_self a t)
      show baseHandler (a :: (t ++ e :: post)) ctx = e.handler ctx
      unfold baseHandler
      rw [ha]
      simp only [Bool.false_eq_true, if_false]
      exact ih (fun e2 he2 => hpre e2 (List.mem_cons_of_mem a he2))

/-! Concrete route entries over the logging context, for the C1
witness: both match every payload, and each handler logs itself. -/

/-- First registered route: matches everything, logs "R1". -/
def r1Entry : RouteEntry (List String) :=
  ⟨fun _ => true, fun ctx => (ctx ++ ["R1"], none)⟩

/-- Second registered route: also matches everything, logs "R2". -/
def r2Entry : RouteEntry (List String) :=
  ⟨fun _ => true, fun ctx => (ctx ++ ["R2"], none)⟩

/-- Claim C1 witness: with both routes matching, dispatch runs exactly
the first-registered handler. -/
theorem first_match_wins_witness :
    baseHandler [r1Entry, r2Entry] [] = r1Entry.handler [] :=
  first_match_wins [] r1Entry [r2Entry] []
    (fun e2 he2 => absurd he2 (List.not_mem_nil e2)) rfl

/-- Claim C7: Fork yields a child with the identical buffer reference,
with a value store equal to the parent's at fork time, and independent
afterwards — a Set or Delete on the child leaves the parent's store
exactly as it was, and a Set or Delete on the parent leaves the child's
store exactly the fork-time copy; Fork never mutates the receiver (its
fields are untouched and its store cell is unchanged in the new heap).
`c.mapRef < m.cells.length` says the receiver's map is a live heap
cell. -/
theorem fork_shares_buffer_copies_store (c : CtxObj) (m : CtxMem) (k v : Nat)
    (hlive : c.mapRef < m.cells.length) :
    ctxBuffer (ctxFork c m).1 = ctxBuffer c ∧
    (ctxFork c m).1.parent = c.parent ∧
    ctxStore c (ctxFork c m).2 = ctxStore c m ∧
    ctxStore (ctxFork c m).1 (ctxFork c m).2 = ctxStore c m ∧
    ctxStore c (ctxSet (ctxFork c m).1 k v (ctxFork c m).2) = ctxStore c m ∧
    ctxStore c (ctxDelete (ctxFork c m).1 k (ctxFork c m).2) = ctxStore c m ∧
    ctxStore (ctxFork c m).1 (ctxSet c k v (ctxFork c m).2) = ctxStore c m ∧
    ctxStore (ctxFork c m).1 (ctxDelete c k (ctxFork c m).2) = ctxStore c m := by
  have hne : c.mapRef ≠ m.cells.length := Nat.ne_of_lt hlive
  have hparent : ctxStore c (ctxFork c m).2 = ctxStore c m := by
    show (m.cells ++ [ctxStore c m]).getD c.mapRef [] = ctxStore c m
    exact getD_append_left [] m.cells [ctxStore c m] c.mapRef hlive
  have hchild : ctxStore (ctxFork c m).1 (ctxFork c m).2 = ctxStore c m := by
    show (m.cells ++ [ctxStore c m]).getD m.cells.length [] = ctxStore c m
    exact getD_append_length [] (ctxStore c m) m.cells
  refine ⟨rfl, rfl, hparent, hchild, ?_, ?_, ?_, ?_⟩
  · show ((m.cells ++ [ctxStore c m]).set m.cells.length _).getD c.mapRef [] = ctxStore c m
    rw [set_getD_ne [] _ (m.cells ++ [ctxStore c m]) m.cells.length c.mapRef
      (fun h => hne h.symm)]
    exact hparent
  · show ((m.cells ++ [ctxStore c m]).set m.cells.length _).getD c.mapRef [] = ctxStore c m
    rw [set_getD_ne [] _ (m.cells ++ [ctxStore c m]) m.cells.length c.mapRef
      (fun h => hne h.symm)]
    exact hparent
  · show ((m.cells ++ [ctxStore c m]).set c.mapRef _).getD m.cells.length [] = ctxStore c m
    rw [set_getD_ne [] _ (m.cells ++ [ctxStore c m]) c.mapRef m.cells.length hne]
    exact hchild
  · show ((m.cells ++ [ctxStore c m]).set c.mapRef _).getD m.cells.length [] = ctxStore c m
    rw [set_getD_ne [] _ (m.cells ++ [ctxStore c m]) c.mapRef m.cells.length hne]
    exact hchild

/-- Claim C7 witness: a live context whose store holds `(1, 2)` and
whose buffer reference is 3, forked and then mutated on each side. -/
theorem fork_witness :
    ctxBuffer (ctxFork ⟨some 0, some 3, 0⟩ ⟨[[(1, 2)]]⟩).1 =
      ctxBuffer (⟨some 0, some 3, 0⟩ : CtxObj) ∧
    (ctxFork ⟨some 0, some 3, 0⟩ ⟨[[(1, 2)]]⟩).1.parent =
      (⟨some 0, some 3, 0⟩ : CtxObj).parent ∧
    ctxStore ⟨some 0, some 3, 0⟩ (ctxFork ⟨some 0, some 3, 0⟩ ⟨[[(1, 2)]]⟩).2 =
      ctxStore ⟨some 0, some 3, 0⟩ ⟨[[(1, 2)]]⟩ ∧
    ctxStore (ctxFork ⟨some 0, some 3, 0⟩ ⟨[[(1, 2)]]⟩).1
        (ctxFork ⟨some 0, some 3, 0⟩ ⟨[[(1, 2)]]⟩).2 =
      ctxStore ⟨some 0, some 3, 0⟩ ⟨[[(1, 2)]]⟩ ∧
    ctxStore ⟨some 0, some 3, 0⟩
        (ctxSet (ctxFork ⟨some 0, some 3, 0⟩ ⟨[[(1, 2)]]⟩).1 1 99
          (ctxFork ⟨some 0, some 3, 0⟩ ⟨[[(1, 2)]]⟩).2) =
      ctxStore ⟨some 0, some 3, 0⟩ ⟨[[(1, 2)]]⟩ ∧
    ctxStore ⟨some 0, some 3, 0⟩
        (ctxDelete (ctxFork ⟨some 0, some 3, 0⟩ ⟨[[(1, 2)]]⟩).1 1
          (ctxFork ⟨some 0, some 3, 0⟩ ⟨[[(1, 2)]]⟩).2) =
      ctxStore ⟨some 0, some 3, 0⟩ ⟨[[(1, 2)]]⟩ ∧
    ctxStore (ctxFork ⟨some 0, some 3, 0⟩ ⟨[[(1, 2)]]⟩).1
        (ctxSet ⟨some 0, some 3, 0⟩ 1 99 (ctxFork ⟨some 0, some 3, 0⟩ ⟨[[(1, 2)]]⟩).2) =
      ctxStore ⟨some 0, some 3, 0⟩ ⟨[[(1, 2)]]⟩ ∧
    ctxStore (ctxFork ⟨some 0, some 3, 0⟩ ⟨[[(1, 2)]]⟩).1
        (ctxDelete ⟨some 0, some 3, 0⟩ 1 (ctxFork ⟨some 0, some 3, 0⟩ ⟨[[(1, 2)]]⟩).2) =
      ctxStore ⟨some 0, some 3, 0⟩ ⟨[[(1, 2)]]⟩ :=
  fork_shares_buffer_copies_store ⟨some 0, some 3, 0⟩ ⟨[[(1, 2)]]⟩ 1 99 (by decide)

/-! ### Router chain lemmas -/

/-- The rebuild branch always produces the middleware-composed chain
over the current route table (the no-middleware special case coincides
with composing the empty middleware list). -/
theorem rebuildChain_eq {Ctx : Type} (r : RouterState Ctx) :
    rebuildChain r =
      (composeChain r.middlewares (baseHandler r.routes),
       { r with handlerChain := some (composeChain r.middlewares (baseHandler r.routes)),
                dirty := false }) := by
  rcases r with ⟨routes, mws, chain, dirty⟩
  cases mws with
  | nil => rfl
  | cons a t => rfl

/-- On a clean router with a cached chain, buildHandlerChain returns the
cache and leaves the state untouched. -/
theorem buildHandlerChain_clean {Ctx : Type} (r : RouterState Ctx)
    (h0 : HandlerFunc Ctx) (hd : r.dirty = false) (hc : r.handlerChain = some h0) :
    buildHandlerChain r = (h0, r) := by
  rcases r with ⟨routes, mws, chain, dirty⟩
  cases hd
  cases hc
  rfl

/-- On a dirty router (or one with no cached chain) buildHandlerChain
rebuilds. -/
theorem buildHandlerChain_rebuild {Ctx : Type} (r : RouterState Ctx)
    (h : r.dirty = true ∨ r.handlerChain = none) :
    buildHandlerChain r = rebuildChain r := by
  rcases r with ⟨routes, mws, chain, dirty⟩
  cases dirty with
  | true => rfl
  | false =>
      cases chain with
      | none => rfl
      | some h0 =>
          rcases h with h | h
          · cases h
          · cases h

/-- In every reachable clean router state the cached chain is exactly
the middleware-composed chain over the current tables. -/
theorem reachable_chain_consistent {Ctx : Type} (r : RouterState Ctx)
    (hr : Reachable r) :
    r.dirty = false → ∀ h0, r.handlerChain = some h0 →
      h0 = composeChain r.middlewares (baseHandler r.routes) := by
  induction hr with
  | new => intro _ h0 hc; cases hc
  | register r m h hr ih => intro hd; cases hd
  | use r ms hr ih => intro hd; cases hd
  | route r ctx0 hr ih =>
      intro hd h0 hc
      rcases hdc : r.dirty with _ | _
      · rcases hcc : r.handlerChain with _ | hcache
        · rw [route, buildHandlerChain_rebuild r (Or.inr hcc), rebuildChain_eq] at hd hc ⊢
          simp only at hc ⊢
          cases hc
          rfl
        · rw [route, buildHandlerChain_clean r hcache hdc hcc] at hd hc ⊢
          exact ih hdc h0 hc
      · rw [route, buildHandlerChain_rebuild r (Or.inl hdc), rebuildChain_eq] at hd hc ⊢
        simp only at hc ⊢
        cases hc
        rfl

/-- The terminal handler returns the context unchanged and a nil error
when no route entry matches. -/
theorem baseHandler_no_match {Ctx : Type} (routes : List (RouteEntry Ctx))
    (ctx : Ctx) (h : ∀ e ∈ routes, e.matcher ctx = false) :
    baseHandler routes ctx = (ctx, none) := by
  induction routes with
  | nil => rfl
  | cons a t ih =>
      have ha : a.matcher ctx = false := h a (List.mem_cons_self a t)
      show baseHandler (a :: t) ctx = (ctx, none)
      unfold baseHandler
      rw [ha]
      simp only [Bool.false_eq_true, if_false]
      exact ih (fun e he => h e (List.mem_cons_of_mem a he))

/-- Claim C6, amended: when no registered route's matcher accepts the
payload, Route executes no route handler and hands back the very buffer
reference it was given, and the dispatch error is nil whenever the
router's middleware list is empty — with middlewares registered, Route
returns the chain's error, which a middleware may make non-nil even
though no route matched (see the counterexample).  The `Reachable`
hypothesis ties the cached chain to the router's own tables. -/
theorem no_route_is_success (r : RouterState (List Char)) (buf : Buffer)
    (hr : Reachable r) (hmw : r.middlewares = [])
    (hnone : ∀ e ∈ r.routes, e.matcher buf.data = false) :
    (routeBuffer r buf).1 = buf ∧ (routeBuffer r buf).2.1 = none := by
  refine ⟨rfl, ?_⟩
  show ((buildHandlerChain r).1 buf.data).2 = none
  rcases hdc : r.dirty with _ | _
  · rcases hcc : r.handlerChain with _ | hcache
    · rw [buildHandlerChain_rebuild r (Or.inr hcc), rebuildChain_eq]
      show (composeChain r.middlewares (baseHandler r.routes) buf.data).2 = none
      rw [hmw]
      show (baseHandler r.routes buf.data).2 = none
      rw [baseHandler_no_match r.routes buf.data hnone]
    · rw [buildHandlerChain_clean r hcache hdc hcc]
      show (hcache buf.data).2 = none
      rw [reachable_chain_consistent r hr hdc hcache hcc, hmw]
      show (baseHandler r.routes buf.data).2 = none
      rw [baseHandler_no_match r.routes buf.data hnone]
  · rw [buildHandlerChain_rebuild r (Or.inl hdc), rebuildChain_eq]
    show (composeChain r.middlewares (baseHandler r.routes) buf.data).2 = none
    rw [hmw]
    show (baseHandler r.routes buf.data).2 = none
    rw [baseHandler_no_match r.routes buf.data hnone]

/-! Concrete router for the C6 witness: one registered route whose
pattern does not occur at the head of the payload. -/

/-- A handler that would report having run. -/
def hMark : HandlerFunc (List Char) := fun ctx => (ctx, some "handled")

/-- A router with the single route `Match("XYZ", hMark)`. -/
def rNoMatch : RouterState (List Char) :=
  register newRouter (fun data => matchPattern "XYZ".toList data) hMark

/-- Claim C6 witness: routing the payload "Hello" through `rNoMatch`
returns the same buffer and the nil error. -/
theorem no_route_is_success_witness :
    (routeBuffer rNoMatch { data := "Hello".toList }).1 = { data := "Hello".toList } ∧
    (routeBuffer rNoMatch { data := "Hello".toList }).2.1 = none := by
  refine no_route_is_success rNoMatch { data := "Hello".toList }
    (Reachable.register newRouter _ hMark Reachable.new) rfl ?_
  intro e he
  simp only [rNoMatch, register, newRouter, List.nil_append, List.mem_singleton] at he
  subst he
  decide

/-! A router refuting the original C6 over every router: it carries the
same single non-matching route as `rNoMatch` plus one middleware that
returns its own error without calling the rest of the chain. -/

/-- A middleware that returns an error of its own and never calls the
next handler. -/
def mwErr : MiddlewareFunc (List Char) := fun ctx _ => (ctx, some "mw-error")

/-- `rNoMatch` with the error-injecting middleware attached via Use. -/
def rMwErr : RouterState (List Char) :=
  use rNoMatch [mwErr]

/-- Claim C6, counterexample: the claim quantifies over every router
and asserts a nil error on the no-route path; on the router `rMwErr`
the only registered matcher (the one route's leading-bytes test for
"XYZ") rejects the payload "Hello", yet Route returns the middleware's
non-nil error — while still handing back the same buffer reference. -/
theorem no_route_error_with_middleware :
    matchPattern "XYZ".toList "Hello".toList = false ∧
    (routeBuffer rMwErr { data := "Hello".toList }).2.1 = some "mw-error" ∧
    (routeBuffer rMwErr { data := "Hello".toList }).1 = { data := "Hello".toList } := by
  refine ⟨by decide, rfl, rfl⟩

/-- Claim C4: Register, Match and Use all set the dirty flag; a dirty
router's next Route rebuilds the composed chain from the current route
table and middleware list (so a route registered after a dispatch is in
the table the rebuilt terminal handler scans, and a middleware added
after a dispatch wraps the rebuilt chain), while a clean router's Route
reuses the cached chain and leaves the state unchanged. -/
theorem mutation_dirties_and_rebuilds {Ctx : Type} (r : RouterState Ctx)
    (m : Matcher Ctx) (h : HandlerFunc Ctx) (ms : List (MiddlewareFunc Ctx))
    (bufGet : Ctx → List Char) (pat : List Char) (h0 : HandlerFunc Ctx) :
    (register r m h).dirty = true ∧
    (routerMatch bufGet r pat h).dirty = true ∧
    (use r ms).dirty = true ∧
    (r.dirty = true →
      buildHandlerChain r =
        (composeChain r.middlewares (baseHandler r.routes),
         { r with handlerChain := some (composeChain r.middlewares (baseHandler r.routes)),
                  dirty := false })) ∧
    (r.dirty = false → r.handlerChain = some h0 → buildHandlerChain r = (h0, r)) ∧
    (buildHandlerChain (register r m h)).1 =
      composeChain r.middlewares (baseHandler (r.routes ++ [⟨m, h⟩])) ∧
    (buildHandlerChain (use r ms)).1 =
      composeChain (r.middlewares ++ ms) (baseHandler r.routes) := by
  refine ⟨rfl, rfl, rfl, ?_, ?_, ?_, ?_⟩
  · intro hd
    rw [buildHandlerChain_rebuild r (Or.inl hd), rebuildChain_eq]
  · intro hd hc
    exact buildHandlerChain_clean r h0 hd hc
  · rw [buildHandlerChain_rebuild (register r m h) (Or.inl rfl), rebuildChain_eq]
    rfl
  · rw [buildHandlerChain_rebuild (use r ms) (Or.inl rfl), rebuildChain_eq]
    rfl

/-! Concrete router states for the C4 witness: a dirty router with one
middleware, and a clean router with a cached chain. -/

/-- A matcher accepting everything (over the logging context). -/
def mAll : Matcher (List String) := fun _ => true

/-- The chain cached by the clean router below. -/
def chainClean : HandlerFunc (List String) := baseHandler []

/-- A dirty router holding one middleware. -/
def rDirty : RouterState (List String) :=
  { routes := [], middlewares := [logMw "M1"], handlerChain := none, dirty := true }

/-- A clean router whose cache holds `chainClean`. -/
def rClean : RouterState (List String) :=
  { routes := [], middlewares := [], handlerChain := some chainClean, dirty := false }

/-- Claim C4 witness: mutations dirty the concrete routers, the dirty
router rebuilds from its tables, the clean router reuses its cache, and
registering a route or adding a middleware is observed by the next
rebuild. -/
theorem mutation_dirties_and_rebuilds_witness :
    (register rDirty mAll logH).dirty = true ∧
    (use rClean [logMw "M2"]).dirty = true ∧
    buildHandlerChain rDirty =
      (composeChain rDirty.middlewares (baseHandler rDirty.routes),
       { rDirty with
           handlerChain := some (composeChain rDirty.middlewares (baseHandler rDirty.routes)),
           dirty := false }) ∧
    buildHandlerChain rClean = (chainClean, rClean) ∧
    (buildHandlerChain (register rClean mAll logH)).1 =
      composeChain rClean.middlewares (baseHandler (rClean.routes ++ [⟨mAll, logH⟩])) ∧
    (buildHandlerChain (use rClean [logMw "M2"])).1 =
      composeChain (rClean.middlewares ++ [logMw "M2"]) (baseHandler rClean.routes) :=
  ⟨(mutation_dirties_and_rebuilds rDirty mAll logH [logMw "M2"]
      (fun _ => []) [] chainClean).1,
   (mutation_dirties_and_rebuilds rClean mAll logH [logMw "M2"]
      (fun _ => []) [] chainClean).2.2.1,
   (mutation_dirties_and_rebuilds rDirty mAll logH [logMw "M2"]
      (fun _ => []) [] chainClean).2.2.2.1 rfl,
   (mutation_dirties_and_rebuilds rClean mAll logH [logMw "M2"]
      (fun _ => []) [] chainClean).2.2.2.2.1 rfl rfl,
   (mutation_dirties_and_rebuilds rClean mAll logH [logMw "M2"]
      (fun _ => []) [] chainClean).2.2.2.2.2.1,
   (mutation_dirties_and_rebuilds rClean mAll logH [logMw "M2"]
      (fun _ => []) [] chainClean).2.2.2.2.2.2⟩

end ContentRouter
